import Mathlib

/-!
Verification development for the wpf-gpu-raster path rasterizer.

The `PathBuilder` front end and the `rasterize_to_tri_strip` orchestrator are
translated from `src/lib.rs`.  The scan-conversion core lives in modules that
are not part of the sources at hand (`aarasterizer`, `hwrasterizer`,
`aacoverage`, `hwvertexbuffer`, `real`, `types`); those parts are modelled
from the specification and are marked as such in their doc comments.

Machine floats (`f32`) are embedded as exact rationals, and the 28.4
fixed-point coordinates as integers.
-/

/-- Mirrors `OutputVertex` from lib.rs: position plus antialias coverage.
The `f32` fields are embedded as rationals. -/
structure OutputVertex where
  x : ℚ
  y : ℚ
  coverage : ℚ
deriving DecidableEq, Repr

/-- Mirrors `FillMode` from lib.rs. -/
inductive FillMode where
  | EvenOdd
  | Winding
deriving DecidableEq, Repr

/-- Mirrors `MilPoint2F` (a pair of `f32`, embedded as rationals). -/
structure MilPoint2F where
  X : ℚ
  Y : ℚ
deriving DecidableEq, Repr

/-- Mirrors `POINT`: a 28.4 fixed-point coordinate pair (integers). -/
structure POINT where
  x : ℤ
  y : ℤ
deriving DecidableEq, Repr

/-- Mirrors `CMILSurfaceRect`: an integer pixel rectangle. -/
structure CMILSurfaceRect where
  left : ℤ
  top : ℤ
  right : ℤ
  bottom : ℤ
deriving DecidableEq, Repr

/-- Path point type tag: starts a subpath (consumes one point). -/
def PathPointTypeStart : ℕ := 0

/-- Path point type tag: line segment (consumes one point). -/
def PathPointTypeLine : ℕ := 1

/-- Path point type tag: cubic Bezier (consumes three points). -/
def PathPointTypeBezier : ℕ := 3

/-- Flag bit marking the point that closes its subpath. -/
def PathPointTypeCloseSubpath : ℕ := 128

/-- Modelled from the spec: `CheckValidRange28_4` lives in the
`aarasterizer` module, which is not among the sources.  The spec bounds the
representable 28.4 range by about plus or minus 2^27 in 28.4 units, so the
check accepts exactly the coordinates of magnitude below 134217728 = 2^27
(the argument is the already shifted and scaled coordinate). -/
def CheckValidRange28_4 (x y : ℚ) : Bool :=
  decide (-134217728 < x) && decide (x < 134217728) &&
  decide (-134217728 < y) && decide (y < 134217728)

/-- Modelled from the spec: `CFloatFPU::Round` lives in the `real` module,
which is not among the sources.  The spec asks for rounding to the nearest
integer. -/
def CFloatFPU.Round (x : ℚ) : ℤ :=
  round x

/-- The 28.4 conversion applied by `PathBuilder::add_point`: shift the pixel
corner to the pixel center, scale by 16 and round to the nearest integer. -/
def convertPoint (x y : ℚ) : POINT :=
  ⟨CFloatFPU.Round ((x - 1/2) * 16), CFloatFPU.Round ((y - 1/2) * 16)⟩

/-- Mirrors the `PathBuilder` struct from lib.rs. -/
structure PathBuilder where
  points : List POINT
  types : List ℕ
  initial_point : Option MilPoint2F
  in_shape : Bool
  fill_mode : FillMode
  outside_bounds : Option CMILSurfaceRect
  need_inside : Bool
  valid_range : Bool
deriving DecidableEq, Repr

/-- Mirrors `PathBuilder::new`. -/
def PathBuilder.new : PathBuilder where
  points := []
  types := []
  initial_point := none
  in_shape := false
  fill_mode := FillMode.EvenOdd
  outside_bounds := none
  need_inside := true
  valid_range := true

/-- Mirrors `PathBuilder::add_point`: convert to 28.4, conjoin the range
check into `valid_range`, push the rounded point. -/
def PathBuilder.add_point (b : PathBuilder) (x y : ℚ) : PathBuilder :=
  let fx := (x - 1/2) * 16
  let fy := (y - 1/2) * 16
  { b with
    valid_range := b.valid_range && CheckValidRange28_4 fx fy
    points := b.points ++ [⟨CFloatFPU.Round fx, CFloatFPU.Round fy⟩] }

/-- Mirrors `PathBuilder::line_to`. -/
def PathBuilder.line_to (b : PathBuilder) (x y : ℚ) : PathBuilder :=
  match b.initial_point with
  | some ip =>
      let b1 :=
        if b.in_shape then b
        else
          let b0 := { b with types := b.types ++ [PathPointTypeStart] }
          let b0 := b0.add_point ip.X ip.Y
          { b0 with in_shape := true }
      let b2 := { b1 with types := b1.types ++ [PathPointTypeLine] }
      b2.add_point x y
  | none => { b with initial_point := some ⟨x, y⟩ }

/-- Mirrors `PathBuilder::move_to`. -/
def PathBuilder.move_to (b : PathBuilder) (x y : ℚ) : PathBuilder :=
  { b with in_shape := false, initial_point := some ⟨x, y⟩ }

/-- Mirrors `PathBuilder::curve_to`. -/
def PathBuilder.curve_to (b : PathBuilder) (c1x c1y c2x c2y x y : ℚ) : PathBuilder :=
  let ip : MilPoint2F :=
    match b.initial_point with
    | some ip => ip
    | none => ⟨c1x, c1y⟩
  let b1 :=
    if b.in_shape then b
    else
      let b0 := { b with types := b.types ++ [PathPointTypeStart] }
      let b0 := b0.add_point ip.X ip.Y
      { b0 with initial_point := some ip, in_shape := true }
  let b2 := { b1 with types := b1.types ++ [PathPointTypeBezier] }
  ((b2.add_point c1x c1y).add_point c2x c2y).add_point x y

/-- Mirrors `PathBuilder::quad_to`.  The second line computes the y
component of the first elevated control point from `cx`, exactly as the
source does. -/
def PathBuilder.quad_to (b : PathBuilder) (cx cy x y : ℚ) : PathBuilder :=
  let c0 : MilPoint2F :=
    match b.initial_point with
    | some ip => ip
    | none => ⟨cx, cy⟩
  let c1x := c0.X + (2/3) * (cx - c0.X)
  let c1y := c0.Y + (2/3) * (cx - c0.Y)
  let c2x := x + (2/3) * (cx - x)
  let c2y := y + (2/3) * (cy - y)
  b.curve_to c1x c1y c2x c2y x y

/-- Mirrors `PathBuilder::close`: set the close flag on the last type entry,
leave the shape, drop the pending initial point. -/
def PathBuilder.close (b : PathBuilder) : PathBuilder :=
  let types2 :=
    match b.types.getLast? with
    | some last => b.types.dropLast ++ [last ||| PathPointTypeCloseSubpath]
    | none => b.types
  { b with types := types2, in_shape := false, initial_point := none }

/-- Mirrors `PathBuilder::set_fill_mode`. -/
def PathBuilder.set_fill_mode (b : PathBuilder) (fill_mode : FillMode) : PathBuilder :=
  { b with fill_mode := fill_mode }

/-- Mirrors `PathBuilder::set_outside_bounds`. -/
def PathBuilder.set_outside_bounds (b : PathBuilder)
    (outside_bounds : Option (ℤ × ℤ × ℤ × ℤ)) (need_inside : Bool) : PathBuilder :=
  { b with
    outside_bounds := outside_bounds.map (fun r => ⟨r.1, r.2.1, r.2.2.1, r.2.2.2⟩)
    need_inside := need_inside }

/-! ## The scan-conversion core, modelled from the specification

The modules `aarasterizer`, `hwrasterizer`, `aacoverage` and
`hwvertexbuffer` are not among the sources; everything below up to
`rasterizeCore` is modelled from the specification (sections 4.1 to 4.7):
curve flattening by recursive subdivision, edge extraction with implicit
closing and dropping of horizontal edges, a sweep over the 16 subpixel rows
of every clipped pixel row, fill-rule span construction, and per-run
coverage equal to the fraction of the 16 subpixel rows that are inside. -/

/-- An exact fraction over the integers, the scratch number type of the
modelled core.  Every constructor below keeps the denominator positive, so
the cross-multiplication comparisons are the rational order.  (The
arithmetic of the library rationals is irreducible by design, which blocks
kernel evaluation; the core is executable on concrete paths through this
type.) -/
structure Fx where
  num : ℤ
  den : ℤ
deriving DecidableEq, Repr

/-- Embed an integer. -/
def Fx.ofInt (n : ℤ) : Fx :=
  ⟨n, 1⟩

/-- The rational value of a fraction. -/
def Fx.toRat (a : Fx) : ℚ :=
  (a.num : ℚ) / (a.den : ℚ)

/-- Fraction addition. -/
def Fx.add (a b : Fx) : Fx :=
  ⟨a.num * b.den + b.num * a.den, a.den * b.den⟩

/-- Fraction subtraction. -/
def Fx.sub (a b : Fx) : Fx :=
  ⟨a.num * b.den - b.num * a.den, a.den * b.den⟩

/-- Fraction multiplication. -/
def Fx.mul (a b : Fx) : Fx :=
  ⟨a.num * b.num, a.den * b.den⟩

/-- Fraction division, normalizing the sign into the numerator; division by
zero is mapped to zero (the core never divides by zero: edges have a
nonzero vertical extent). -/
def Fx.div (a b : Fx) : Fx :=
  let n := a.num * b.den
  let d := a.den * b.num
  if d < 0 then ⟨-n, -d⟩ else if d = 0 then ⟨0, 1⟩ else ⟨n, d⟩

/-- Halve a fraction. -/
def Fx.half (a : Fx) : Fx :=
  ⟨a.num, 2 * a.den⟩

/-- Strict order by cross multiplication (denominators are positive). -/
def Fx.blt (a b : Fx) : Bool :=
  decide (a.num * b.den < b.num * a.den)

/-- Nonstrict order by cross multiplication. -/
def Fx.ble (a b : Fx) : Bool :=
  decide (a.num * b.den ≤ b.num * a.den)

/-- Value equality by cross multiplication. -/
def Fx.beq (a b : Fx) : Bool :=
  decide (a.num * b.den = b.num * a.den)

/-- A point of the modelled core, in 28.4 fixed units. -/
structure FxPoint where
  x : Fx
  y : Fx
deriving DecidableEq, Repr

/-- View a stored 28.4 integer point as a core point. -/
def toQ (p : POINT) : FxPoint :=
  ⟨Fx.ofInt p.x, Fx.ofInt p.y⟩

/-- Componentwise midpoint, used by de Casteljau subdivision. -/
def midQ (a b : FxPoint) : FxPoint :=
  ⟨(a.x.add b.x).half, (a.y.add b.y).half⟩

/-- Componentwise difference. -/
def subQ (a b : FxPoint) : FxPoint :=
  ⟨a.x.sub b.x, a.y.sub b.y⟩

/-- Two-dimensional cross product. -/
def crossQ (a b : FxPoint) : Fx :=
  (a.x.mul b.y).sub (a.y.mul b.x)

/-- Squared distance between two core points. -/
def dist2 (a b : FxPoint) : Fx :=
  ((a.x.sub b.x).mul (a.x.sub b.x)).add ((a.y.sub b.y).mul (a.y.sub b.y))

/-- Modelled from the spec: flatness test for a cubic.  The deviation of
each control point from the chord must be at most a fixed sub-pixel
tolerance (4 fixed units, a quarter pixel); for a degenerate chord the
control points must be near the start point. -/
def bezierIsFlat (p0 p1 p2 p3 : FxPoint) : Bool :=
  let d := subQ p3 p0
  let l2 := (d.x.mul d.x).add (d.y.mul d.y)
  let c1 := crossQ d (subQ p1 p0)
  let c2 := crossQ d (subQ p2 p0)
  if l2.beq (Fx.ofInt 0) then
    (dist2 p1 p0).ble (Fx.ofInt 16) && (dist2 p2 p0).ble (Fx.ofInt 16)
  else
    (c1.mul c1).ble ((Fx.ofInt 16).mul (l2.mul l2)) &&
    (c2.mul c2).ble ((Fx.ofInt 16).mul (l2.mul l2))

/-- Modelled from the spec: recursive de Casteljau subdivision with bounded
depth.  Returns the polyline vertices that follow `p0`, ending at `p3`. -/
def flattenBezier : ℕ → FxPoint → FxPoint → FxPoint → FxPoint → List FxPoint
  | 0, _, _, _, p3 => [p3]
  | n + 1, p0, p1, p2, p3 =>
    if bezierIsFlat p0 p1 p2 p3 then [p3]
    else
      let p01 := midQ p0 p1
      let p12 := midQ p1 p2
      let p23 := midQ p2 p3
      let p012 := midQ p01 p12
      let p123 := midQ p12 p23
      let m := midQ p012 p123
      flattenBezier n p0 p01 p012 m ++ flattenBezier n m p123 p23 p3

/-- Emit a finished subpath: a subpath with fewer than two vertices has no
drawn segment and contributes nothing.  The accumulator holds the vertices
in reverse order. -/
def closeOut (cur : List FxPoint) : List (List FxPoint) :=
  match cur with
  | [] => []
  | [_] => []
  | _ => [cur.reverse]

/-- Modelled from the spec: walk the type and point arrays and produce the
flattened polyline of every subpath.  `Start` and `Line` consume one point,
`Bezier` consumes three; the close flag ends the current subpath. -/
def parsePath : List ℕ → List POINT → List FxPoint → List (List FxPoint)
  | [], _, cur => closeOut cur
  | t :: ts, pts, cur =>
    let isClose := PathPointTypeCloseSubpath ≤ t
    let base := if isClose then t - PathPointTypeCloseSubpath else t
    if base = PathPointTypeBezier then
      let p0 := match cur with
                | c :: _ => c
                | [] => toQ (pts.headD ⟨0, 0⟩)
      let p1 := toQ (pts.headD ⟨0, 0⟩)
      let p2 := toQ ((pts.drop 1).headD ⟨0, 0⟩)
      let p3 := toQ ((pts.drop 2).headD ⟨0, 0⟩)
      let cur2 := (flattenBezier 10 p0 p1 p2 p3).reverse ++ cur
      if isClose then closeOut cur2 ++ parsePath ts (pts.drop 3) []
      else parsePath ts (pts.drop 3) cur2
    else if base = PathPointTypeStart then
      let p := toQ (pts.headD ⟨0, 0⟩)
      if isClose then closeOut cur ++ parsePath ts (pts.drop 1) []
      else closeOut cur ++ parsePath ts (pts.drop 1) [p]
    else
      let p := toQ (pts.headD ⟨0, 0⟩)
      if isClose then closeOut (p :: cur) ++ parsePath ts (pts.drop 1) []
      else parsePath ts (pts.drop 1) (p :: cur)

/-- A directed y-monotonic edge of the modelled core, normalized so that
`y0 < y1`, with the winding sign remembering the original direction. -/
structure Edge where
  x0 : Fx
  y0 : Fx
  x1 : Fx
  y1 : Fx
  sign : ℤ
deriving DecidableEq, Repr

/-- Build the edge of one segment, dropping edges of zero vertical extent
and normalizing the sweep direction to increasing y. -/
def mkEdge (a b : FxPoint) : List Edge :=
  if a.y.beq b.y then []
  else if a.y.blt b.y then [⟨a.x, a.y, b.x, b.y, 1⟩]
  else [⟨b.x, b.y, a.x, a.y, -1⟩]

/-- Edges of the open polyline (consecutive vertex pairs). -/
def segEdges : List FxPoint → List Edge
  | a :: b :: rest => mkEdge a b ++ segEdges (b :: rest)
  | _ => []

/-- Edges of one subpath: the drawn segments plus the implicit closing
segment from the last vertex back to the first. -/
def polyEdges (poly : List FxPoint) : List Edge :=
  match poly with
  | [] => []
  | [_] => []
  | a :: rest => segEdges (a :: rest) ++ mkEdge ((a :: rest).getLastD a) a

/-- The x intercept of an edge at sweep height `ys`. -/
def edgeXAt (e : Edge) (ys : Fx) : Fx :=
  e.x0.add (((ys.sub e.y0).mul (e.x1.sub e.x0)).div (e.y1.sub e.y0))

/-- The crossings of the active edges at sweep height `ys` (half-open
active interval in y), unsorted. -/
def crossingsAt (edges : List Edge) (ys : Fx) : List (Fx × ℤ) :=
  edges.filterMap fun e =>
    if e.y0.ble ys && ys.blt e.y1 then some (edgeXAt e ys, e.sign) else none

/-- Insert one crossing into a list sorted by x intercept. -/
def insertByX (c : Fx × ℤ) : List (Fx × ℤ) → List (Fx × ℤ)
  | [] => [c]
  | d :: ds => if c.1.ble d.1 then c :: d :: ds else d :: insertByX c ds

/-- Sort crossings by x intercept. -/
def sortByX : List (Fx × ℤ) → List (Fx × ℤ)
  | [] => []
  | c :: cs => insertByX c (sortByX cs)

/-- Even-odd spans: pair up the sorted crossings. -/
def spansEO : List (Fx × ℤ) → List (Fx × Fx)
  | c1 :: c2 :: rest => (c1.1, c2.1) :: spansEO rest
  | _ => []

/-- Nonzero-winding spans: a span is open while the running signed count is
nonzero. -/
def spansW : ℤ → Fx → List (Fx × ℤ) → List (Fx × Fx)
  | _, _, [] => []
  | acc, start, c :: rest =>
    let acc2 := acc + c.2
    if acc = 0 then spansW acc2 c.1 rest
    else if acc2 = 0 then (start, c.1) :: spansW acc2 c.1 rest
    else spansW acc2 start rest

/-- The inside spans of one subpixel row under the given fill rule; spans
of zero or negative width are dropped. -/
def spansAt (fm : FillMode) (edges : List Edge) (ys : Fx) : List (Fx × Fx) :=
  let cs := sortByX (crossingsAt edges ys)
  let raw := match fm with
             | FillMode.EvenOdd => spansEO cs
             | FillMode.Winding => spansW 0 (Fx.ofInt 0) cs
  raw.filter fun s => s.1.blt s.2

/-- The span lists of the 16 subpixel rows of pixel row `r`. -/
def rowSpans (fm : FillMode) (edges : List Edge) (r : ℤ) : List (List (Fx × Fx)) :=
  (List.range 16).map fun s => spansAt fm edges (Fx.ofInt (16 * r + (s : ℤ)))

/-- Insert a fraction into a sorted list without duplicate values. -/
def insertQ (q : Fx) : List Fx → List Fx
  | [] => [q]
  | a :: l =>
    if q.blt a then q :: a :: l
    else if q.beq a then a :: l
    else a :: insertQ q l

/-- Sort a list of fractions by value and remove duplicate values. -/
def sortDedupQ : List Fx → List Fx
  | [] => []
  | q :: l => insertQ q (sortDedupQ l)

/-- All span endpoints of a pixel row, sorted and deduplicated: between two
consecutive breakpoints every subpixel row is constant. -/
def breakpoints (sl : List (List (Fx × Fx))) : List Fx :=
  sortDedupQ (sl.flatMap fun spans => spans.flatMap fun s => [s.1, s.2])

/-- The number of the subpixel rows whose spans cover the open interval
from `a` to `b` (for consecutive breakpoints, overlap equals cover). -/
def coverageBetween (sl : List (List (Fx × Fx))) (a b : Fx) : ℕ :=
  (sl.filter fun spans => spans.any fun s => s.1.blt b && a.blt s.2).length

/-- Walk the consecutive breakpoint pairs of pixel row `r` and emit a pair
of vertices for every run with nonzero coverage; the coverage is the
fraction of the 16 subpixel rows inside, and positions are converted from
28.4 fixed units back to device pixels. -/
def intervalsVerts (sl : List (List (Fx × Fx))) (r : ℤ) : List Fx → List OutputVertex
  | a :: b :: rest =>
    (let k := coverageBetween sl a b
     if k = 0 then []
     else [⟨a.toRat / 16, (r : ℚ), (k : ℚ) / 16⟩, ⟨b.toRat / 16, (r : ℚ) + 1, (k : ℚ) / 16⟩])
    ++ intervalsVerts sl r (b :: rest)
  | _ => []

/-- The vertices of one pixel row. -/
def rowVertices (sl : List (List (Fx × Fx))) (r : ℤ) : List OutputVertex :=
  intervalsVerts sl r (breakpoints sl)

/-- Modelled from the spec: sweep the pixel rows of the clip region and
collect the vertices of every row. -/
def scanArea (fm : FillMode) (edges : List Edge) (clip_y clip_height : ℤ) :
    List OutputVertex :=
  (List.range clip_height.toNat).flatMap fun i =>
    rowVertices (rowSpans fm edges (clip_y + (i : ℤ))) (clip_y + (i : ℤ))

/-- Modelled from the spec: the outside-bounds geometry is zero-coverage
geometry over the effective rectangle (the spec refinement of subtracting
the shape from the rectangle is not observed by any claim and is elided). -/
def outsideQuad (x y w h : ℤ) : List OutputVertex :=
  [⟨(x : ℚ), (y : ℚ), 0⟩, ⟨((x + w : ℤ) : ℚ), (y : ℚ), 0⟩,
   ⟨(x : ℚ), ((y + h : ℤ) : ℚ), 0⟩, ⟨((x + w : ℤ) : ℚ), ((y + h : ℤ) : ℚ), 0⟩]

/-- Modelled from the spec: the whole scan-conversion core wired together
(spec section 4.7).  A degenerate effective rectangle short-circuits to the
empty output (spec error class ClipDegenerate); otherwise the path is
parsed and flattened, edges are extracted, the interior is swept when
`need_inside` holds, and zero-coverage outside geometry is appended when
`need_outside` holds. -/
def rasterizeCore (fill_mode : FillMode) (types : List ℕ) (points : List POINT)
    (clip_x clip_y clip_width clip_height : ℤ)
    (need_inside need_outside : Bool) : List OutputVertex :=
  if clip_width ≤ 0 ∨ clip_height ≤ 0 then []
  else
    let edges := (parsePath types points []).flatMap polyEdges
    (if need_inside then scanArea fill_mode edges clip_y clip_height else []) ++
    (if need_outside then outsideQuad clip_x clip_y clip_width clip_height else [])

/-- Mirrors the free function `rasterize_to_tri_strip` from lib.rs.  Its
body performs device setup and delegates the actual work to the rasterizer
and vertex-builder modules, which are not among the sources; the delegated
work is the modelled core `rasterizeCore`. -/
def rasterize_to_tri_strip (fill_mode : FillMode) (types : List ℕ) (points : List POINT)
    (clip_x clip_y clip_width clip_height : ℤ)
    (need_inside need_outside : Bool) : List OutputVertex :=
  rasterizeCore fill_mode types points clip_x clip_y clip_width clip_height
    need_inside need_outside

/-- Root-level alias so that the method below can refer to the free
function of the same name. -/
def rasterize_to_tri_strip_free := rasterize_to_tri_strip

/-- Mirrors the method `PathBuilder::rasterize_to_tri_strip`: short-circuit
on an invalid range, intersect the outside bounds with the clip rectangle
when present, and hand over to the free function. -/
def PathBuilder.rasterize_to_tri_strip (b : PathBuilder)
    (clip_x clip_y clip_width clip_height : ℤ) : List OutputVertex :=
  if b.valid_range = false then []
  else
    match b.outside_bounds with
    | some r =>
        let x0 := max clip_x r.left
        let y0 := max clip_y r.top
        let x1 := min (clip_x + clip_width) r.right
        let y1 := min (clip_y + clip_height) r.bottom
        rasterize_to_tri_strip_free b.fill_mode b.types b.points x0 y0 (x1 - x0) (y1 - y0)
          b.need_inside true
    | none =>
        rasterize_to_tri_strip_free b.fill_mode b.types b.points clip_x clip_y
          clip_width clip_height b.need_inside false

/-- The builder operations a client can perform, used to quantify over
whole call sequences. -/
inductive PathOp where
  | move_to (x y : ℚ)
  | line_to (x y : ℚ)
  | curve_to (c1x c1y c2x c2y x y : ℚ)
  | quad_to (cx cy x y : ℚ)
  | close
  | set_fill_mode (fm : FillMode)
  | set_outside_bounds (r : Option (ℤ × ℤ × ℤ × ℤ)) (ni : Bool)
deriving DecidableEq, Repr

/-- Apply one builder operation. -/
def applyOp (b : PathBuilder) : PathOp → PathBuilder
  | .move_to x y => b.move_to x y
  | .line_to x y => b.line_to x y
  | .curve_to c1x c1y c2x c2y x y => b.curve_to c1x c1y c2x c2y x y
  | .quad_to cx cy x y => b.quad_to cx cy x y
  | .close => b.close
  | .set_fill_mode fm => b.set_fill_mode fm
  | .set_outside_bounds r ni => b.set_outside_bounds r ni

/-- Build a path from scratch by a sequence of operations. -/
def build (ops : List PathOp) : PathBuilder :=
  ops.foldl applyOp PathBuilder.new

/-- The coordinate pairs that one operation, applied in state `b`, feeds
through `add_point` (and hence converts to 28.4 and range-checks).  A
`move_to`, and a first `line_to` that only buffers its pending start,
convert nothing. -/
def opConvertedPoints (b : PathBuilder) : PathOp → List (ℚ × ℚ)
  | .move_to _ _ => []
  | .line_to x y =>
      match b.initial_point with
      | some ip => (if b.in_shape then [] else [(ip.X, ip.Y)]) ++ [(x, y)]
      | none => []
  | .curve_to c1x c1y c2x c2y x y =>
      let ip : MilPoint2F :=
        match b.initial_point with
        | some ip => ip
        | none => ⟨c1x, c1y⟩
      (if b.in_shape then [] else [(ip.X, ip.Y)]) ++ [(c1x, c1y), (c2x, c2y), (x, y)]
  | .quad_to cx cy x y =>
      let c0 : MilPoint2F :=
        match b.initial_point with
        | some ip => ip
        | none => ⟨cx, cy⟩
      let c1x := c0.X + (2/3) * (cx - c0.X)
      let c1y := c0.Y + (2/3) * (cx - c0.Y)
      let c2x := x + (2/3) * (cx - x)
      let c2y := y + (2/3) * (cy - y)
      let ip : MilPoint2F :=
        match b.initial_point with
        | some ip => ip
        | none => ⟨c1x, c1y⟩
      (if b.in_shape then [] else [(ip.X, ip.Y)]) ++ [(c1x, c1y), (c2x, c2y), (x, y)]
  | .close => []
  | .set_fill_mode _ => []
  | .set_outside_bounds _ _ => []

/-- The output contract on one vertex: its coverage lies in the closed unit
interval. -/
def coverageOK (v : OutputVertex) : Bool :=
  decide (0 ≤ v.coverage) && decide (v.coverage ≤ 1)

/-! ## Helper lemmas -/

/-- A flat map whose function is constantly empty is empty. -/
theorem flatMap_nil_of {α β : Type} (l : List α) (f : α → List β)
    (h : ∀ x, f x = []) : l.flatMap f = [] := by
  induction l with
  | nil => rfl
  | cons a l ih => simp [h, ih]

/-- With no edges, every subpixel row has no spans. -/
theorem spansAt_nil (fm : FillMode) (ys : Fx) : spansAt fm [] ys = [] := by
  cases fm <;> rfl

/-- A row all of whose subpixel rows are empty has no breakpoints. -/
theorem breakpoints_all_nil (sl : List (List (Fx × Fx))) (h : ∀ s ∈ sl, s = []) :
    breakpoints sl = [] := by
  unfold breakpoints
  have hflat : sl.flatMap (fun spans => spans.flatMap fun s => [s.1, s.2]) = [] := by
    induction sl with
    | nil => rfl
    | cons a l ih =>
        have ha : a = [] := h a (by simp)
        simp [ha, ih (fun s hs => h s (by simp [hs]))]
  rw [hflat]
  rfl

/-- With no edges, no pixel row emits any vertex. -/
theorem rowVertices_nil (fm : FillMode) (r : ℤ) :
    rowVertices (rowSpans fm [] r) r = [] := by
  unfold rowVertices
  rw [breakpoints_all_nil]
  · rfl
  · intro s hs
    simp only [rowSpans, List.mem_map] at hs
    obtain ⟨i, _, rfl⟩ := hs
    exact spansAt_nil fm _

/-- With no edges, the sweep produces nothing. -/
theorem scanArea_nil (fm : FillMode) (cy ch : ℤ) : scanArea fm [] cy ch = [] := by
  unfold scanArea
  exact flatMap_nil_of _ _ (fun i => rowVertices_nil fm _)

/-- The validity flag after one operation: the previous flag conjoined with
the range checks of exactly the points the operation converts. -/
theorem validRange_applyOp (b : PathBuilder) (op : PathOp) :
    (applyOp b op).valid_range =
      (b.valid_range &&
        (opConvertedPoints b op).all fun p =>
          CheckValidRange28_4 ((p.1 - 1/2) * 16) ((p.2 - 1/2) * 16)) := by
  cases op with
  | move_to x y =>
      simp [applyOp, PathBuilder.move_to, opConvertedPoints]
  | line_to x y =>
      cases hip : b.initial_point with
      | none => simp [applyOp, PathBuilder.line_to, opConvertedPoints, hip]
      | some ip =>
          cases hsh : b.in_shape <;>
            simp [applyOp, PathBuilder.line_to, opConvertedPoints, hip, hsh,
              PathBuilder.add_point, Bool.and_assoc]
  | curve_to c1x c1y c2x c2y x y =>
      cases hip : b.initial_point with
      | none =>
          cases hsh : b.in_shape <;>
            simp [applyOp, PathBuilder.curve_to, opConvertedPoints, hip, hsh,
              PathBuilder.add_point, Bool.and_assoc]
      | some ip =>
          cases hsh : b.in_shape <;>
            simp [applyOp, PathBuilder.curve_to, opConvertedPoints, hip, hsh,
              PathBuilder.add_point, Bool.and_assoc]
  | quad_to cx cy x y =>
      cases hip : b.initial_point with
      | none =>
          cases hsh : b.in_shape <;>
            simp [applyOp, PathBuilder.quad_to, PathBuilder.curve_to, opConvertedPoints,
              hip, hsh, PathBuilder.add_point, Bool.and_assoc]
      | some ip =>
          cases hsh : b.in_shape <;>
            simp [applyOp, PathBuilder.quad_to, PathBuilder.curve_to, opConvertedPoints,
              hip, hsh, PathBuilder.add_point, Bool.and_assoc]
  | close =>
      simp [applyOp, PathBuilder.close, opConvertedPoints]
  | set_fill_mode fm =>
      simp [applyOp, PathBuilder.set_fill_mode, opConvertedPoints]
  | set_outside_bounds r ni =>
      simp [applyOp, PathBuilder.set_outside_bounds, opConvertedPoints]

/-- Once the validity flag is false, no single operation resets it. -/
theorem validRange_false_applyOp (b : PathBuilder) (op : PathOp)
    (h : b.valid_range = false) : (applyOp b op).valid_range = false := by
  rw [validRange_applyOp, h, Bool.false_and]

/-- Once the validity flag is false, no sequence of operations resets it. -/
theorem validRange_false_foldl (ops : List PathOp) (b : PathBuilder)
    (h : b.valid_range = false) : (List.foldl applyOp b ops).valid_range = false := by
  induction ops generalizing b with
  | nil => exact h
  | cons op ops ih => exact ih _ (validRange_false_applyOp b op h)

/-- A builder with a false validity flag rasterizes to the empty array. -/
theorem rasterize_invalid (b : PathBuilder) (h : b.valid_range = false)
    (cx cy cw ch : ℤ) : b.rasterize_to_tri_strip cx cy cw ch = [] := by
  simp [PathBuilder.rasterize_to_tri_strip, h]

/-! ## Claim theorems -/

/-- C2: rasterization is deterministic: two invocations of
`rasterize_to_tri_strip` on the same builder with the same clip rectangle
return identical vertex arrays (the embedding is a pure function of the
inputs, mirroring that the source allocates all of its state afresh inside
each call). -/
theorem rasterize_deterministic (b : PathBuilder) (cx cy cw ch : ℤ) :
    b.rasterize_to_tri_strip cx cy cw ch = b.rasterize_to_tri_strip cx cy cw ch :=
  rfl

/-- C5: a builder on which exactly one `line_to` was called (before any
`move_to`) records no points and no types, and rasterizes to the empty
array for every clip rectangle. -/
theorem lone_line_to_rasterizes_empty (x y : ℚ) (cx cy cw ch : ℤ) :
    (PathBuilder.new.line_to x y).points = []
  ∧ (PathBuilder.new.line_to x y).types = []
  ∧ (PathBuilder.new.line_to x y).rasterize_to_tri_strip cx cy cw ch = [] := by
  refine ⟨rfl, rfl, ?_⟩
  show rasterizeCore FillMode.EvenOdd [] [] cx cy cw ch true false = []
  unfold rasterizeCore
  split
  · rfl
  · show scanArea FillMode.EvenOdd ((parsePath [] [] []).flatMap polyEdges) cy ch ++ [] = []
    rw [List.append_nil]
    exact scanArea_nil FillMode.EvenOdd cy ch

/-- C6: every coordinate pair an operation records is stored as the 28.4
fixed-point pair obtained by shifting by one half, scaling by 16 and
rounding to the nearest integer. -/
theorem recorded_points_conversion (b : PathBuilder) (op : PathOp) :
    (applyOp b op).points =
      b.points ++ (opConvertedPoints b op).map fun p => convertPoint p.1 p.2 := by
  cases op with
  | move_to x y =>
      simp [applyOp, PathBuilder.move_to, opConvertedPoints]
  | line_to x y =>
      cases hip : b.initial_point with
      | none => simp [applyOp, PathBuilder.line_to, opConvertedPoints, hip]
      | some ip =>
          cases hsh : b.in_shape <;>
            simp [applyOp, PathBuilder.line_to, opConvertedPoints, hip, hsh,
              PathBuilder.add_point, convertPoint, List.append_assoc]
  | curve_to c1x c1y c2x c2y x y =>
      cases hip : b.initial_point with
      | none =>
          cases hsh : b.in_shape <;>
            simp [applyOp, PathBuilder.curve_to, opConvertedPoints, hip, hsh,
              PathBuilder.add_point, convertPoint, List.append_assoc]
      | some ip =>
          cases hsh : b.in_shape <;>
            simp [applyOp, PathBuilder.curve_to, opConvertedPoints, hip, hsh,
              PathBuilder.add_point, convertPoint, List.append_assoc]
  | quad_to cx cy x y =>
      cases hip : b.initial_point with
      | none =>
          cases hsh : b.in_shape <;>
            simp [applyOp, PathBuilder.quad_to, PathBuilder.curve_to, opConvertedPoints,
              hip, hsh, PathBuilder.add_point, convertPoint, List.append_assoc]
      | some ip =>
          cases hsh : b.in_shape <;>
            simp [applyOp, PathBuilder.quad_to, PathBuilder.curve_to, opConvertedPoints,
              hip, hsh, PathBuilder.add_point, convertPoint, List.append_assoc]
  | close =>
      simp [applyOp, PathBuilder.close, opConvertedPoints]
  | set_fill_mode fm =>
      simp [applyOp, PathBuilder.set_fill_mode, opConvertedPoints]
  | set_outside_bounds r ni =>
      simp [applyOp, PathBuilder.set_outside_bounds, opConvertedPoints]

/-- C9: once an added point fails the 28.4 range check, the validity flag
stays false through every further operation, and every later rasterize call
returns the empty array. -/
theorem valid_range_monotone (b : PathBuilder) (x y : ℚ)
    (h : CheckValidRange28_4 ((x - 1/2) * 16) ((y - 1/2) * 16) = false)
    (ops : List PathOp) (cx cy cw ch : ℤ) :
    (List.foldl applyOp (b.add_point x y) ops).valid_range = false
  ∧ (List.foldl applyOp (b.add_point x y) ops).rasterize_to_tri_strip cx cy cw ch = [] := by
  have h0 : (b.add_point x y).valid_range = false := by
    have hdef : (b.add_point x y).valid_range
        = (b.valid_range && CheckValidRange28_4 ((x - 1/2) * 16) ((y - 1/2) * 16)) := rfl
    rw [hdef, h, Bool.and_false]
  have h1 := validRange_false_foldl ops _ h0
  exact ⟨h1, rasterize_invalid _ h1 cx cy cw ch⟩

/-- Witness for C9 at the out-of-range input of the range test of the
repository, followed by further drawing and configuration calls. -/
theorem valid_range_monotone_witness :
    CheckValidRange28_4 ((88729740000000000 - 1/2) * 16) ((0 - 1/2) * 16) = false
  ∧ ((List.foldl applyOp (PathBuilder.new.add_point 88729740000000000 0)
        [PathOp.line_to 1 1, PathOp.close, PathOp.set_fill_mode FillMode.Winding,
         PathOp.move_to 2 2, PathOp.quad_to 3 3 4 4]).valid_range = false
     ∧ (List.foldl applyOp (PathBuilder.new.add_point 88729740000000000 0)
        [PathOp.line_to 1 1, PathOp.close, PathOp.set_fill_mode FillMode.Winding,
         PathOp.move_to 2 2, PathOp.quad_to 3 3 4 4]).rasterize_to_tri_strip 0 0 100 100 = []) :=
  ⟨by norm_num [CheckValidRange28_4],
   valid_range_monotone PathBuilder.new 88729740000000000 0 (by norm_num [CheckValidRange28_4])
     [PathOp.line_to 1 1, PathOp.close, PathOp.set_fill_mode FillMode.Winding,
      PathOp.move_to 2 2, PathOp.quad_to 3 3 4 4] 0 0 100 100⟩

/-- C1 (amended): if any coordinate that the builder actually converts
(feeds through `add_point`) maps outside the representable 28.4 range after
the pixel-center shift and scaling, then `rasterize_to_tri_strip` returns
the empty array, regardless of the other points and of the clip
rectangle. -/
theorem converted_invalid_point_yields_empty (opsA : List PathOp) (op : PathOp)
    (opsB : List PathOp) (x y : ℚ)
    (hmem : (x, y) ∈ opConvertedPoints (build opsA) op)
    (hbad : CheckValidRange28_4 ((x - 1/2) * 16) ((y - 1/2) * 16) = false)
    (cx cy cw ch : ℤ) :
    (build (opsA ++ op :: opsB)).rasterize_to_tri_strip cx cy cw ch = [] := by
  have hall : ((opConvertedPoints (build opsA) op).all fun p =>
      CheckValidRange28_4 ((p.1 - 1/2) * 16) ((p.2 - 1/2) * 16)) = false := by
    rw [List.all_eq_false]
    refine ⟨(x, y), hmem, ?_⟩
    simp only [hbad]
    exact Bool.false_ne_true
  have h1 : (applyOp (build opsA) op).valid_range = false := by
    rw [validRange_applyOp, hall, Bool.and_false]
  have h2 : (build (opsA ++ op :: opsB)).valid_range = false := by
    unfold build
    rw [List.foldl_append, List.foldl_cons]
    exact validRange_false_foldl opsB _ h1
  exact rasterize_invalid _ h2 cx cy cw ch

/-- Witness for C1 (amended) at the out-of-range start point of the
range test of the repository. -/
theorem converted_invalid_point_yields_empty_witness :
    (88729740000000000, (0 : ℚ)) ∈ opConvertedPoints (build [])
      (PathOp.curve_to 88729740000000000 0 0 0 0 0)
  ∧ CheckValidRange28_4 ((88729740000000000 - 1/2) * 16) ((0 - 1/2) * 16) = false
  ∧ (build ([] ++ PathOp.curve_to 88729740000000000 0 0 0 0 0 :: [])).rasterize_to_tri_strip
      0 0 100 100 = [] :=
  ⟨by decide, by norm_num [CheckValidRange28_4],
   converted_invalid_point_yields_empty [] (PathOp.curve_to 88729740000000000 0 0 0 0 0)
     [] 88729740000000000 0 (by decide) (by norm_num [CheckValidRange28_4]) 0 0 100 100⟩

/-- C1 counterexample: an out-of-range coordinate passed to a drawing call
(`line_to` before any `move_to`) is only buffered; a following `move_to`
discards it without ever converting it, so the path stays valid and the
rasterization of the later square is not empty — the claim as stated fails
for coordinates that are passed but never converted. -/
theorem unconverted_invalid_coordinate_nonempty :
    CheckValidRange28_4 ((1000000000000000000 - 1/2) * 16) ((0 - 1/2) * 16) = false
  ∧ (build [PathOp.line_to 1000000000000000000 0, PathOp.move_to 0 0, PathOp.line_to 3 0,
      PathOp.line_to 3 3, PathOp.line_to 0 3]).rasterize_to_tri_strip 0 0 1 1 ≠ [] := by
  constructor
  · norm_num [CheckValidRange28_4]
  · have hb : build [PathOp.line_to 1000000000000000000 0, PathOp.move_to 0 0,
        PathOp.line_to 3 0, PathOp.line_to 3 3, PathOp.line_to 0 3]
        = ⟨[⟨-8, -8⟩, ⟨40, -8⟩, ⟨40, 40⟩, ⟨-8, 40⟩], [0, 1, 1, 1], some ⟨0, 0⟩, true,
           FillMode.EvenOdd, none, true, true⟩ := by
      norm_num [build, applyOp, PathBuilder.new, PathBuilder.move_to, PathBuilder.line_to,
        PathBuilder.add_point, CheckValidRange28_4, CFloatFPU.Round, round_eq,
        PathPointTypeStart, PathPointTypeLine]
    rw [hb]
    decide

/-- C10: the `quad_to` degree elevation is not the exact componentwise
elevation: at the failing input `quad_to(3, 0, 0, 0)` from a fresh builder,
the recorded points differ from those of the claimed equivalent
`curve_to(3, 0, 2, 0, 0, 0)`, and instead equal those of
`curve_to(3, 2, 2, 0, 0, 0)` — the y component of the first elevated
control point is computed from `cx` instead of `cy`. -/
theorem quad_to_degree_elevation_bug :
    (PathBuilder.new.quad_to 3 0 0 0).points ≠ (PathBuilder.new.curve_to 3 0 2 0 0 0).points
  ∧ (PathBuilder.new.quad_to 3 0 0 0).points = (PathBuilder.new.curve_to 3 2 2 0 0 0).points := by
  have h1 : (PathBuilder.new.quad_to 3 0 0 0).points
      = [⟨40, 24⟩, ⟨40, 24⟩, ⟨24, -8⟩, ⟨-8, -8⟩] := by
    norm_num [PathBuilder.quad_to, PathBuilder.curve_to, PathBuilder.add_point,
      PathBuilder.new, CFloatFPU.Round, round_eq]
  have h2 : (PathBuilder.new.curve_to 3 0 2 0 0 0).points
      = [⟨40, -8⟩, ⟨40, -8⟩, ⟨24, -8⟩, ⟨-8, -8⟩] := by
    norm_num [PathBuilder.curve_to, PathBuilder.add_point, PathBuilder.new,
      CFloatFPU.Round, round_eq]
  have h3 : (PathBuilder.new.curve_to 3 2 2 0 0 0).points
      = [⟨40, 24⟩, ⟨40, 24⟩, ⟨24, -8⟩, ⟨-8, -8⟩] := by
    norm_num [PathBuilder.curve_to, PathBuilder.add_point, PathBuilder.new,
      CFloatFPU.Round, round_eq]
  rw [h1, h2, h3]
  exact ⟨by decide, rfl⟩

/-- C3: with outside bounds set, rasterization uses the intersection of the
outside-bounds rectangle with the clip rectangle as the effective rectangle
handed to the core, and a degenerate intersection (zero or negative width
or height) yields the empty array. -/
theorem outside_bounds_intersection_effective (b : PathBuilder) (r : CMILSurfaceRect)
    (h : b.outside_bounds = some r) (cx cy cw ch : ℤ) :
    (b.valid_range = true →
      b.rasterize_to_tri_strip cx cy cw ch
        = rasterize_to_tri_strip b.fill_mode b.types b.points (max cx r.left) (max cy r.top)
            (min (cx + cw) r.right - max cx r.left) (min (cy + ch) r.bottom - max cy r.top)
            b.need_inside true)
  ∧ ((min (cx + cw) r.right - max cx r.left ≤ 0 ∨ min (cy + ch) r.bottom - max cy r.top ≤ 0) →
      b.rasterize_to_tri_strip cx cy cw ch = []) := by
  constructor
  · intro hv
    unfold PathBuilder.rasterize_to_tri_strip
    rw [if_neg (by simp [hv]), h]
    rfl
  · intro hdeg
    cases hval : b.valid_range with
    | false => exact rasterize_invalid b hval cx cy cw ch
    | true =>
        unfold PathBuilder.rasterize_to_tri_strip
        rw [if_neg (by simp [hval]), h]
        show rasterizeCore b.fill_mode b.types b.points _ _ _ _ b.need_inside true = []
        unfold rasterizeCore
        rw [if_pos hdeg]

/-- Witness for C3: a builder whose outside bounds do not meet the clip
rectangle rasterizes to the empty array. -/
theorem outside_bounds_intersection_effective_witness :
    (PathBuilder.new.set_outside_bounds (some (0, 0, 50, 50)) false).outside_bounds
      = some ⟨0, 0, 50, 50⟩
  ∧ min (60 + 10) (50 : ℤ) - max 60 0 ≤ 0
  ∧ (PathBuilder.new.set_outside_bounds (some (0, 0, 50, 50)) false).rasterize_to_tri_strip
      60 0 10 10 = [] :=
  ⟨rfl, by decide,
   (outside_bounds_intersection_effective
      (PathBuilder.new.set_outside_bounds (some (0, 0, 50, 50)) false)
      ⟨0, 0, 50, 50⟩ rfl 60 0 10 10).2 (Or.inl (by decide))⟩

/-- C4 (amended): with no pending initial point, a `line_to` only buffers
its coordinate as the implicit start and appends nothing, while a
`curve_to` buffers its first control point as the implicit start and
immediately draws the Bezier segment (appending a Start and a Bezier
entry). -/
theorem first_draw_call_buffering (b : PathBuilder) (h : b.initial_point = none)
    (hs : b.in_shape = false) (c1x c1y c2x c2y x y : ℚ) :
    (b.line_to x y).types = b.types
  ∧ (b.line_to x y).points = b.points
  ∧ (b.line_to x y).initial_point = some ⟨x, y⟩
  ∧ (b.curve_to c1x c1y c2x c2y x y).types
      = b.types ++ [PathPointTypeStart, PathPointTypeBezier]
  ∧ (b.curve_to c1x c1y c2x c2y x y).points
      = b.points ++ [convertPoint c1x c1y, convertPoint c1x c1y,
          convertPoint c2x c2y, convertPoint x y]
  ∧ (b.curve_to c1x c1y c2x c2y x y).initial_point = some ⟨c1x, c1y⟩ := by
  refine ⟨?_, ?_, ?_, ?_, ?_, ?_⟩ <;>
    simp [PathBuilder.line_to, PathBuilder.curve_to, PathBuilder.add_point, h, hs,
      convertPoint, List.append_assoc]

/-- Witness for C4 (amended) on a fresh builder. -/
theorem first_draw_call_buffering_witness :
    PathBuilder.new.initial_point = none
  ∧ PathBuilder.new.in_shape = false
  ∧ ((PathBuilder.new.line_to 5 6).types = PathBuilder.new.types
     ∧ (PathBuilder.new.line_to 5 6).points = PathBuilder.new.points
     ∧ (PathBuilder.new.line_to 5 6).initial_point = some ⟨5, 6⟩
     ∧ (PathBuilder.new.curve_to 1 2 3 4 5 6).types
         = PathBuilder.new.types ++ [PathPointTypeStart, PathPointTypeBezier]
     ∧ (PathBuilder.new.curve_to 1 2 3 4 5 6).points
         = PathBuilder.new.points ++ [convertPoint 1 2, convertPoint 1 2,
             convertPoint 3 4, convertPoint 5 6]
     ∧ (PathBuilder.new.curve_to 1 2 3 4 5 6).initial_point = some ⟨1, 2⟩) :=
  ⟨rfl, rfl, first_draw_call_buffering PathBuilder.new rfl rfl 1 2 3 4 5 6⟩

/-- C4 counterexample: a first `curve_to` before any `move_to` does draw a
segment during that call — the types array gains a Bezier entry — so the
claim that such a call appends no segment fails for `curve_to`. -/
theorem first_curve_to_appends_bezier :
    PathBuilder.new.initial_point = none
  ∧ PathPointTypeBezier ∈ (PathBuilder.new.curve_to 1 2 3 4 5 6).types :=
  ⟨rfl, by decide⟩

set_option maxRecDepth 100000 in
/-- C7: after `close`, a further `curve_to` without an intervening
`move_to` starts a fresh subpath — a new Start entry (with the first control point of the curve
as start) followed by a Bezier entry is appended, and
the pending state of the closed subpath is not reused; at the test input
of the repository, the closed degenerate curve followed by a single trailing
degenerate curve rasterizes to the empty array. -/
theorem close_then_draw_fresh_subpath (b : PathBuilder) (c1x c1y c2x c2y x y : ℚ) :
    (b.close.curve_to c1x c1y c2x c2y x y).types
      = b.close.types ++ [PathPointTypeStart, PathPointTypeBezier]
  ∧ (b.close.curve_to c1x c1y c2x c2y x y).points
      = b.close.points ++ [convertPoint c1x c1y, convertPoint c1x c1y,
          convertPoint c2x c2y, convertPoint x y]
  ∧ (b.close.curve_to c1x c1y c2x c2y x y).initial_point = some ⟨c1x, c1y⟩
  ∧ (build [PathOp.curve_to 0 0 0 0 0 32, PathOp.close,
      PathOp.curve_to 0 0 0 0 0 32]).rasterize_to_tri_strip 0 0 100 100 = [] := by
  refine ⟨?_, ?_, ?_, ?_⟩
  · simp [PathBuilder.close, PathBuilder.curve_to, PathBuilder.add_point, List.append_assoc]
  · simp [PathBuilder.close, PathBuilder.curve_to, PathBuilder.add_point, convertPoint,
      List.append_assoc]
  · simp [PathBuilder.close, PathBuilder.curve_to, PathBuilder.add_point]
  · have hl : (3 : ℕ) ||| 128 = 131 := by decide
    have hb : build [PathOp.curve_to 0 0 0 0 0 32, PathOp.close,
        PathOp.curve_to 0 0 0 0 0 32]
        = ⟨[⟨-8, -8⟩, ⟨-8, -8⟩, ⟨-8, -8⟩, ⟨-8, 504⟩,
            ⟨-8, -8⟩, ⟨-8, -8⟩, ⟨-8, -8⟩, ⟨-8, 504⟩],
           [0, 131, 0, 3], some ⟨0, 0⟩, true, FillMode.EvenOdd, none, true, true⟩ := by
      norm_num [build, applyOp, PathBuilder.new, PathBuilder.curve_to, PathBuilder.close,
        PathBuilder.add_point, CheckValidRange28_4, CFloatFPU.Round, round_eq,
        PathPointTypeStart, PathPointTypeBezier, PathPointTypeCloseSubpath, hl]
    rw [hb]
    decide

/-- C8 helper: every vertex emitted for the breakpoint runs of one pixel
row carries a coverage between zero and one (the count of covering
subpixel rows is at most the number of subpixel rows). -/
theorem intervalsVerts_all_coverageOK (sl : List (List (Fx × Fx))) (r : ℤ)
    (hsl : sl.length ≤ 16) :
    ∀ bps : List Fx, (intervalsVerts sl r bps).all coverageOK = true := by
  intro bps
  induction bps with
  | nil => rfl
  | cons a l ih =>
      cases l with
      | nil => rfl
      | cons bq rest =>
          simp only [intervalsVerts, List.all_append, ih, Bool.and_true]
          split
          · rfl
          · have hk : coverageBetween sl a bq ≤ 16 :=
              le_trans (List.length_filter_le _ _) hsl
            have h0 : (0 : ℚ) ≤ (coverageBetween sl a bq : ℚ) / 16 := by positivity
            have h1 : ((coverageBetween sl a bq : ℚ)) / 16 ≤ 1 := by
              rw [div_le_one (by norm_num)]
              exact_mod_cast hk
            simp [coverageOK, h0, h1]

/-- C8 helper: every vertex the sweep emits satisfies the coverage
contract. -/
theorem scanArea_all_coverageOK (fm : FillMode) (edges : List Edge) (cy ch : ℤ) :
    (scanArea fm edges cy ch).all coverageOK = true := by
  rw [List.all_eq_true]
  intro v hv
  unfold scanArea at hv
  rw [List.mem_flatMap] at hv
  obtain ⟨i, _, hv⟩ := hv
  unfold rowVertices at hv
  have hlen : (rowSpans fm edges (cy + (i : ℤ))).length = 16 := rfl
  have hall := intervalsVerts_all_coverageOK (rowSpans fm edges (cy + (i : ℤ)))
      (cy + (i : ℤ)) (le_of_eq hlen) (breakpoints (rowSpans fm edges (cy + (i : ℤ))))
  rw [List.all_eq_true] at hall
  exact hall v hv

/-- C8: every vertex returned by `rasterize_to_tri_strip` has its coverage
in the closed interval from zero to one. -/
theorem coverage_in_unit_interval (fm : FillMode) (types : List ℕ) (points : List POINT)
    (cx cy cw ch : ℤ) (ni no : Bool) :
    (rasterize_to_tri_strip fm types points cx cy cw ch ni no).all coverageOK = true := by
  unfold rasterize_to_tri_strip rasterizeCore
  split
  · rfl
  · simp only [List.all_append]
    have h1 : (if ni then
        scanArea fm ((parsePath types points []).flatMap polyEdges) cy ch
        else []).all coverageOK = true := by
      cases ni
      · rfl
      · exact scanArea_all_coverageOK fm _ cy ch
    have h2 : (if no then outsideQuad cx cy cw ch else []).all coverageOK = true := by
      cases no
      · rfl
      · norm_num [outsideQuad, coverageOK]
    rw [h1, h2]
    rfl
